import Mathlib

/-!
Verification development for the API controller of this repository
(src/backend/controllers/api-controller.ts).

The controller dispatches four operations — search, resourceAction,
recordAction and dashboard — over a registry of resources and actions.
Each operation is embedded below as a Lean function over explicit data,
returning an `Except` result paired with a trace of the calls it makes
into external collaborators (findOne, populate, the accessibility check,
the handler, find).  The trace lets us state non-invocation and ordering
properties (for example that a forbidden request never reaches the
handler).

JavaScript values that flow through handler results are modelled by the
first-order type `JSValue`, with JavaScript truthiness, so that the
guard `jsonWithRecord && jsonWithRecord.record &&
jsonWithRecord.record.recordActions` from the source is embedded
exactly.
-/

/-- A JavaScript value, as far as the controller inspects one: the
result-shape check in recordAction only needs null/undefined, booleans,
numbers, strings and objects (field lists). -/
inductive JSValue where
  | vNull
  | vUndefined
  | vBool (b : Bool)
  | vNum (n : Int)
  | vStr (s : String)
  | vObj (fields : List (String × JSValue))
deriving Repr

/-- JavaScript truthiness: null, undefined, false, 0 and the empty
string are falsy; every object is truthy. -/
def JSValue.truthy : JSValue → Bool
  | .vNull => false
  | .vUndefined => false
  | .vBool b => b
  | .vNum n => n != 0
  | .vStr s => s != ""
  | .vObj _ => true

/-- JavaScript property access `v[key]`: a missing key on an object, or
access on a primitive, yields undefined.  (Access on null or undefined
would throw in JavaScript; the source only accesses fields behind a
truthiness guard, so that case is never reached here.) -/
def JSValue.getField : JSValue → String → JSValue
  | .vObj fields, key => (fields.lookup key).getD JSValue.vUndefined
  | _, _ => JSValue.vUndefined

/-- The actor (`CurrentAdmin`): opaque to the controller, which only
passes it through to accessibility checks, handlers and serialization. -/
abbrev CurrentAdmin := String

/-- Request parameters read by the controller:
`request.params.{resourceId, action, recordId, query}`.  An absent query
is modelled as the empty string, which is exactly what the source's
truthiness test `queryString ? … : …` distinguishes. -/
structure ActionParams where
  resourceId : String
  action : String
  recordId : String
  query : String

/-- An API request, as far as the controller reads it. -/
structure ActionRequest where
  params : ActionParams

/-- A record of a resource: an id plus stored field values, together
with its actor-aware field serialization capability (used by
`toJSON`): given the current actor and a property name it produces the
serialized, possibly redacted, display value. -/
structure ARecord where
  id : String
  params : List (String × String)
  serializeField : Option CurrentAdmin → String → String

/-- The stored value of a property of a record (empty string when the
property is absent), used for search filtering and sorting. -/
def titleValue (rec : ARecord) (prop : String) : String :=
  (rec.params.lookup prop).getD ""

/-- Ascending order on records by the stored value of a property. -/
def titleLE (prop : String) (a b : ARecord) : Prop :=
  titleValue a prop ≤ titleValue b prop

instance (prop : String) : DecidableRel (titleLE prop) := fun a b =>
  inferInstanceAs (Decidable (titleValue a prop ≤ titleValue b prop))

instance (prop : String) : IsTotal ARecord (titleLE prop) :=
  ⟨fun a b => le_total (titleValue a prop) (titleValue b prop)⟩

instance (prop : String) : IsTrans ARecord (titleLE prop) :=
  ⟨fun _ _ _ hab hbc => le_trans hab hbc⟩

/-- An action registered on a resource: a name, an authorization
predicate over the actor and the (possibly absent) target record, and a
handler.  The handler receives the request, the response object and the
`record` field of its context (absent for resource-scope actions); it
either returns a JavaScript value or throws one. -/
structure AAction where
  name : String
  isAccessible : Option CurrentAdmin → Option ARecord → Bool
  handler : ActionRequest → JSValue → Option ARecord → Except JSValue JSValue

/-- A resource together with its decoration, flattened: the backing
records, the decoration's action map, and the name of the decoration's
title property (`decorate().titleProperty().name()`). -/
structure AResource where
  id : String
  records : List ARecord
  actions : List (String × AAction)
  titleProperty : String

/-- Modelled from the spec: `Resource.findOne(id) -> Record | null`,
the single-record lookup of the storage abstraction (the storage layer
itself is an external collaborator, not part of this repository's
source under review). -/
def AResource.findOne (res : AResource) (recordId : String) : Option ARecord :=
  res.records.find? (fun rec => rec.id == recordId)

/-- Modelled from the spec: a `Filter` constrains a query by a
key-to-matched-value mapping; a record matches when every constrained
property has the demanded value, and the empty filter matches all. -/
def matchesFilter (filter : List (String × String)) (rec : ARecord) : Bool :=
  filter.all (fun kv => titleValue rec kv.1 == kv.2)

/-- Modelled from the spec: `Resource.find(filter, {limit, sort}) ->
list<Record>`, the query execution of the storage abstraction — it
returns the matching records sorted by the requested property in the
requested direction, truncated to the requested limit. -/
def AResource.find (res : AResource) (filter : List (String × String)) (limit : Nat)
    (sortBy : String) (direction : String) : List ARecord :=
  let matching := res.records.filter (matchesFilter filter)
  let sorted := matching.insertionSort (titleLE sortBy)
  (if direction == "asc" then sorted else sorted.reverse).take limit

/-- The shape of one entry of a search response, as declared in the
source (`SearchRecord`): the record id and its title. -/
structure SearchRecord where
  id : String
  title : String
deriving Repr

/-- Modelled from the spec: `Record.toJSON(actor)` — the record's own
actor-aware serialization, producing the search shape: the id plus the
serialized (possibly redacted) value of the resource's title
property. -/
def ARecord.toJSON (rec : ARecord) (titlePropertyName : String)
    (actor : Option CurrentAdmin) : SearchRecord :=
  { id := rec.id, title := rec.serializeField actor titlePropertyName }

/-- The `dashboard` entry of the options: it may carry a handler, which
receives the request, the response and the current actor. -/
structure DashboardOptions where
  handler : Option (ActionRequest → JSValue → Option CurrentAdmin → Except JSValue JSValue)

/-- The options of the admin instance, as far as the controller reads
them: the optional dashboard configuration. -/
structure AdminBroOptions where
  dashboard : Option DashboardOptions

/-- The admin instance handed to the controller: the registered
resources and the options. -/
structure AdminBro where
  resources : List AResource
  options : AdminBroOptions

/-- The typed errors this layer can surface, plus the two untyped
failure modes of the embedded JavaScript: a `typeError` raised by a
property access on undefined, and `raised v` for a value thrown inside
a handler and propagated unchanged by the controller. -/
inductive DispatchError where
  | notFound (message : String)
  | forbidden (actionName : String) (resourceId : String)
  | configuration (message : String) (source : String)
  | typeError (message : String)
  | raised (value : JSValue)

/-- Modelled from the spec: `findResource(id) -> Resource | throws
NotFoundError` — lookup of a registered resource by id on the admin
instance (the admin class lives outside the reviewed source). -/
def AdminBro.findResource (admin : AdminBro) (resourceId : String) :
    Except DispatchError AResource :=
  match admin.resources.find? (fun res => res.id == resourceId) with
  | some res => Except.ok res
  | none => Except.error
      (DispatchError.notFound ("There are no resources with given id: " ++ resourceId))

/-- One call made into an external collaborator during a dispatch; the
operations below return the list of these calls in order, so that
non-invocation and ordering properties can be stated. -/
inductive Event where
  | findOneCalled (recordId : String)
  | populateCalled (input output : Option ARecord)
  | accessChecked (record : Option ARecord)
  | handlerCalled (record : Option ARecord)
  | findCalled (filter : List (String × String)) (limit : Nat) (sortBy : String)
      (direction : String)

/-- Recognizes an accessibility-check event, for counting how many
times `isAccessible` is evaluated during a dispatch. -/
def isAccessEvent : Event → Bool
  | .accessChecked _ => true
  | _ => false

/-- The context built for a resource or record action: the resolved
resource, the action looked up on the decoration (undefined — `none` —
when the name is not registered), the current actor and the admin
handle.  The view-helper handle of the source is omitted: it is a
rendering utility never inspected by the dispatch logic. -/
structure ActionContext where
  resource : AResource
  action : Option AAction
  currentAdmin : Option CurrentAdmin
  _admin : AdminBro

/-- The message of the JavaScript TypeError raised when the controller
accesses `.isAccessible` on an undefined action (the registry lookup
missed). -/
def accessUndefinedMsg : String :=
  "Cannot read property isAccessible of undefined"

/-- `ApiController#getActionContext`: resolve the resource via
`findResource` (its NotFoundError propagates) and look the action up in
the decoration's action map — a plain indexing that yields undefined,
not an error, when the name is unknown. -/
def ApiController.getActionContext (admin : AdminBro) (currentAdmin : Option CurrentAdmin)
    (request : ActionRequest) : Except DispatchError ActionContext :=
  match admin.findResource request.params.resourceId with
  | Except.error e => Except.error e
  | Except.ok resource =>
      Except.ok { resource := resource
                  action := resource.actions.lookup request.params.action
                  currentAdmin := currentAdmin
                  _admin := admin }

/-- `ApiController#search`: resolve the resource, check the built-in
list action's accessibility against the actor with a null record, build
the filter from the query string (empty filter for an empty query), run
`find` with limit 50 sorted ascending by the title property, and map
each found record through its serialization. -/
def ApiController.search (admin : AdminBro) (currentAdmin : Option CurrentAdmin)
    (request : ActionRequest) :
    Except DispatchError (List SearchRecord) × List Event :=
  match admin.findResource request.params.resourceId with
  | Except.error e => (Except.error e, [])
  | Except.ok resource =>
      match resource.actions.lookup "list" with
      | none => (Except.error (DispatchError.typeError accessUndefinedMsg), [])
      | some listAction =>
          if listAction.isAccessible currentAdmin none then
            let titlePropertyName := resource.titleProperty
            let filters :=
              if request.params.query ≠ "" then [(titlePropertyName, request.params.query)]
              else []
            let records := resource.find filters 50 titlePropertyName "asc"
            (Except.ok (records.map (fun rec => rec.toJSON titlePropertyName currentAdmin)),
             [Event.findCalled filters 50 titlePropertyName "asc"])
          else
            (Except.error (DispatchError.forbidden "list" resource.id), [])

/-- `ApiController#resourceAction`: build the context, check
`action.isAccessible(currentAdmin, null)`, and on success return the
handler's result unchanged — no shape validation; a value thrown by the
handler propagates with its payload untouched. -/
def ApiController.resourceAction (admin : AdminBro) (currentAdmin : Option CurrentAdmin)
    (request : ActionRequest) (response : JSValue) :
    Except DispatchError JSValue × List Event :=
  match ApiController.getActionContext admin currentAdmin request with
  | Except.error e => (Except.error e, [])
  | Except.ok actionContext =>
      match actionContext.action with
      | none => (Except.error (DispatchError.typeError accessUndefinedMsg), [])
      | some action =>
          if action.isAccessible currentAdmin none then
            match action.handler request response none with
            | Except.ok v =>
                (Except.ok v, [Event.accessChecked none, Event.handlerCalled none])
            | Except.error e =>
                (Except.error (DispatchError.raised e),
                 [Event.accessChecked none, Event.handlerCalled none])
          else
            (Except.error (DispatchError.forbidden action.name actionContext.resource.id),
             [Event.accessChecked none])

/-- The truthiness guard of recordAction's result validation, exactly
as in the source: `jsonWithRecord && jsonWithRecord.record &&
jsonWithRecord.record.recordActions`. -/
def hasRecordJSONShape (v : JSValue) : Bool :=
  v.truthy && (v.getField "record").truthy
    && ((v.getField "record").getField "recordActions").truthy

/-- `ApiController#recordAction`: build the context, load the target
record via `findOne` (possibly null), run the external population
transform on it, check `action.isAccessible(currentAdmin, record)`,
invoke the handler with the context extended by the populated record,
and validate the result's shape by the truthiness guard; on a failed
guard the result is discarded and a ConfigurationError is thrown.  The
population transform `populator` is an external collaborator, passed in
as `pop` (the source applies it to the one-element list `[record]`). -/
def ApiController.recordAction (admin : AdminBro) (currentAdmin : Option CurrentAdmin)
    (pop : Option ARecord → Option ARecord) (request : ActionRequest) (response : JSValue) :
    Except DispatchError JSValue × List Event :=
  match ApiController.getActionContext admin currentAdmin request with
  | Except.error e => (Except.error e, [])
  | Except.ok actionContext =>
      let record0 := actionContext.resource.findOne request.params.recordId
      let record := pop record0
      let baseTrace := [Event.findOneCalled request.params.recordId,
                        Event.populateCalled record0 record]
      match actionContext.action with
      | none => (Except.error (DispatchError.typeError accessUndefinedMsg), baseTrace)
      | some action =>
          if action.isAccessible currentAdmin record then
            match action.handler request response record with
            | Except.error e =>
                (Except.error (DispatchError.raised e),
                 baseTrace ++ [Event.accessChecked record, Event.handlerCalled record])
            | Except.ok jsonWithRecord =>
                if hasRecordJSONShape jsonWithRecord then
                  (Except.ok jsonWithRecord,
                   baseTrace ++ [Event.accessChecked record, Event.handlerCalled record])
                else
                  (Except.error (DispatchError.configuration
                      "handler of a recordAction should return a RecordJSON object"
                      "Action.handler"),
                   baseTrace ++ [Event.accessChecked record, Event.handlerCalled record])
          else
            (Except.error (DispatchError.forbidden action.name actionContext.resource.id),
             baseTrace ++ [Event.accessChecked record])

/-- `ApiController#dashboard`: when `options.dashboard.handler` is
configured, invoke it and return its result unchanged (a thrown value
propagates untouched); otherwise return the fixed informational
payload, verbatim from the source. -/
def ApiController.dashboard (admin : AdminBro) (currentAdmin : Option CurrentAdmin)
    (request : ActionRequest) (response : JSValue) : Except DispatchError JSValue :=
  match admin.options.dashboard.bind DashboardOptions.handler with
  | some handler =>
      match handler request response currentAdmin with
      | Except.ok v => Except.ok v
      | Except.error e => Except.error (DispatchError.raised e)
  | none =>
      Except.ok (JSValue.vObj [("message",
        JSValue.vStr
          "You can override this method by setting up dashboard.handler fuction in AdminBro options")])

/-! ## Shared fixtures for witnesses and counterexamples -/

/-- An always-denied record action used by witnesses. -/
def denyAction : AAction :=
  { name := "approve"
    isAccessible := fun _ _ => false
    handler := fun _ _ _ => Except.ok JSValue.vNull }

/-- A resource whose only action is the denied `approve`. -/
def ordersDenied : AResource :=
  { id := "orders", records := [], actions := [("approve", denyAction)]
    titleProperty := "name" }

/-- Options with no dashboard configured. -/
def noDashboard : AdminBroOptions := { dashboard := none }

/-- Admin instance holding only the denied-orders resource. -/
def deniedAdmin : AdminBro := { resources := [ordersDenied], options := noDashboard }

/-- A request for the `approve` action on record 42 of `orders`. -/
def approveReq : ActionRequest :=
  { params := { resourceId := "orders", action := "approve", recordId := "42", query := "" } }

/-! ## Claims -/

/-- C1: for every actor and every resolved action, if the action's
isAccessible predicate returns false (against null for resourceAction,
against the loaded populated record for recordAction), the operation
fails with ForbiddenError carrying that action's name and the
resource's id, and the handler is never invoked. -/
theorem claim_C1_inaccessible_never_reaches_handler
    (admin : AdminBro) (currentAdmin : Option CurrentAdmin)
    (pop : Option ARecord → Option ARecord)
    (request : ActionRequest) (response : JSValue)
    (ctx : ActionContext) (action : AAction)
    (hctx : ApiController.getActionContext admin currentAdmin request = Except.ok ctx)
    (hact : ctx.action = some action) :
    (action.isAccessible currentAdmin none = false →
      ApiController.resourceAction admin currentAdmin request response
        = (Except.error (DispatchError.forbidden action.name ctx.resource.id),
           [Event.accessChecked none])
      ∧ ∀ r, Event.handlerCalled r ∉
          (ApiController.resourceAction admin currentAdmin request response).2)
    ∧ (∀ record, record = pop (ctx.resource.findOne request.params.recordId) →
        action.isAccessible currentAdmin record = false →
        ApiController.recordAction admin currentAdmin pop request response
          = (Except.error (DispatchError.forbidden action.name ctx.resource.id),
             [Event.findOneCalled request.params.recordId,
              Event.populateCalled (ctx.resource.findOne request.params.recordId) record,
              Event.accessChecked record])
        ∧ ∀ r, Event.handlerCalled r ∉
            (ApiController.recordAction admin currentAdmin pop request response).2) := by
  constructor
  · intro hfalse
    have hr : ApiController.resourceAction admin currentAdmin request response
        = (Except.error (DispatchError.forbidden action.name ctx.resource.id),
           [Event.accessChecked none]) := by
      simp [ApiController.resourceAction, hctx, hact, hfalse]
    exact ⟨hr, fun r => by simp [hr]⟩
  · intro record hrec hfalse
    subst hrec
    have hr : ApiController.recordAction admin currentAdmin pop request response
        = (Except.error (DispatchError.forbidden action.name ctx.resource.id),
           [Event.findOneCalled request.params.recordId,
            Event.populateCalled (ctx.resource.findOne request.params.recordId)
              (pop (ctx.resource.findOne request.params.recordId)),
            Event.accessChecked (pop (ctx.resource.findOne request.params.recordId))]) := by
      simp [ApiController.recordAction, hctx, hact, hfalse]
    exact ⟨hr, fun r => by simp [hr]⟩

/-- Witness for C1 at a concrete denied action: the hypothesis holds
and both operations fail with the forbidden error. -/
theorem claim_C1_witness :
    denyAction.isAccessible none none = false
    ∧ (ApiController.resourceAction deniedAdmin none approveReq JSValue.vNull).1
        = Except.error (DispatchError.forbidden "approve" "orders")
    ∧ (ApiController.recordAction deniedAdmin none (fun r => r) approveReq JSValue.vNull).1
        = Except.error (DispatchError.forbidden "approve" "orders") := by
  have h := claim_C1_inaccessible_never_reaches_handler deniedAdmin none (fun r => r)
      approveReq JSValue.vNull
      { resource := ordersDenied, action := some denyAction, currentAdmin := none
        _admin := deniedAdmin }
      denyAction rfl rfl
  have h1 := (h.1 rfl).1
  have h2 := (h.2 (ordersDenied.findOne "42") rfl rfl).1
  exact ⟨rfl, by rw [h1]; rfl, by rw [h2]; rfl⟩

/-- C2: in recordAction, the population transform is applied to the
findOne result strictly before isAccessible is evaluated, isAccessible
is evaluated exactly once, and the (possibly null) populated record
passed to isAccessible is the record subsequently passed to the
handler in its context — for every input, including a null findOne
result. -/
theorem claim_C2_populate_then_single_check
    (admin : AdminBro) (currentAdmin : Option CurrentAdmin)
    (pop : Option ARecord → Option ARecord)
    (request : ActionRequest) (response : JSValue)
    (ctx : ActionContext) (action : AAction) (record : Option ARecord)
    (hctx : ApiController.getActionContext admin currentAdmin request = Except.ok ctx)
    (hact : ctx.action = some action)
    (hrec : record = pop (ctx.resource.findOne request.params.recordId)) :
    ∃ rest,
      (ApiController.recordAction admin currentAdmin pop request response).2
        = Event.findOneCalled request.params.recordId
          :: Event.populateCalled (ctx.resource.findOne request.params.recordId) record
          :: Event.accessChecked record :: rest
      ∧ ((ApiController.recordAction admin currentAdmin pop request response).2.countP
            isAccessEvent) = 1
      ∧ ∀ r, Event.handlerCalled r ∈
            (ApiController.recordAction admin currentAdmin pop request response).2
          → r = record := by
  subst hrec
  cases hacc : action.isAccessible currentAdmin
      (pop (ctx.resource.findOne request.params.recordId)) with
  | false =>
      refine ⟨[], ?_⟩
      have hr : ApiController.recordAction admin currentAdmin pop request response
          = (Except.error (DispatchError.forbidden action.name ctx.resource.id),
             [Event.findOneCalled request.params.recordId,
              Event.populateCalled (ctx.resource.findOne request.params.recordId)
                (pop (ctx.resource.findOne request.params.recordId)),
              Event.accessChecked (pop (ctx.resource.findOne request.params.recordId))]) := by
        simp [ApiController.recordAction, hctx, hact, hacc]
      refine ⟨by rw [hr], by rw [hr]; simp [List.countP_cons, isAccessEvent], ?_⟩
      intro r hmem
      rw [hr] at hmem
      simp at hmem
  | true =>
      cases hh : action.handler request response
          (pop (ctx.resource.findOne request.params.recordId)) with
      | error e =>
          refine ⟨[Event.handlerCalled (pop (ctx.resource.findOne request.params.recordId))], ?_⟩
          have hr : ApiController.recordAction admin currentAdmin pop request response
              = (Except.error (DispatchError.raised e),
                 [Event.findOneCalled request.params.recordId,
                  Event.populateCalled (ctx.resource.findOne request.params.recordId)
                    (pop (ctx.resource.findOne request.params.recordId)),
                  Event.accessChecked (pop (ctx.resource.findOne request.params.recordId)),
                  Event.handlerCalled (pop (ctx.resource.findOne request.params.recordId))]) := by
            simp [ApiController.recordAction, hctx, hact, hacc, hh]
          refine ⟨by rw [hr], by rw [hr]; simp [List.countP_cons, isAccessEvent], ?_⟩
          intro r hmem
          rw [hr] at hmem
          simp at hmem
          exact hmem
      | ok v =>
          refine ⟨[Event.handlerCalled (pop (ctx.resource.findOne request.params.recordId))], ?_⟩
          have hr : (ApiController.recordAction admin currentAdmin pop request response).2
              = [Event.findOneCalled request.params.recordId,
                 Event.populateCalled (ctx.resource.findOne request.params.recordId)
                   (pop (ctx.resource.findOne request.params.recordId)),
                 Event.accessChecked (pop (ctx.resource.findOne request.params.recordId)),
                 Event.handlerCalled (pop (ctx.resource.findOne request.params.recordId))] := by
            cases hshape : hasRecordJSONShape v with
            | true => simp [ApiController.recordAction, hctx, hact, hacc, hh, hshape]
            | false => simp [ApiController.recordAction, hctx, hact, hacc, hh, hshape]
          refine ⟨by rw [hr], by rw [hr]; simp [List.countP_cons, isAccessEvent], ?_⟩
          intro r hmem
          rw [hr] at hmem
          simp at hmem
          exact hmem

/-- A record with id 17 whose name is Ann, visible to everyone. -/
def annRecord : ARecord :=
  { id := "17", params := [("name", "Ann")], serializeField := fun _ prop => prop }

/-- An always-allowed record action returning a well-shaped result. -/
def allowAction : AAction :=
  { name := "approve"
    isAccessible := fun _ _ => true
    handler := fun _ _ _ => Except.ok (JSValue.vObj [("record",
        JSValue.vObj [("recordActions", JSValue.vObj [])])]) }

/-- A resource carrying `annRecord` and the allowed `approve` action. -/
def ordersAllowed : AResource :=
  { id := "orders", records := [annRecord], actions := [("approve", allowAction)]
    titleProperty := "name" }

/-- Admin instance holding only the allowed-orders resource. -/
def allowedAdmin : AdminBro := { resources := [ordersAllowed], options := noDashboard }

/-- Witness for C2 at a concrete input whose findOne result is null
(record 42 does not exist in the fixture): population runs first, the
check runs once, and the handler sees the same null record. -/
theorem claim_C2_witness :
    ApiController.getActionContext allowedAdmin none approveReq
      = Except.ok { resource := ordersAllowed, action := some allowAction,
                    currentAdmin := none, _admin := allowedAdmin }
    ∧ ∃ rest,
      (ApiController.recordAction allowedAdmin none (fun r => r) approveReq JSValue.vNull).2
        = Event.findOneCalled "42"
          :: Event.populateCalled none none
          :: Event.accessChecked none :: rest
      ∧ ((ApiController.recordAction allowedAdmin none (fun r => r) approveReq
            JSValue.vNull).2.countP isAccessEvent) = 1
      ∧ ∀ r, Event.handlerCalled r ∈
            (ApiController.recordAction allowedAdmin none (fun r => r) approveReq JSValue.vNull).2
          → r = none := by
  refine ⟨rfl, ?_⟩
  have h := claim_C2_populate_then_single_check allowedAdmin none (fun r => r)
      approveReq JSValue.vNull
      { resource := ordersAllowed, action := some allowAction, currentAdmin := none
        _admin := allowedAdmin }
      allowAction none rfl rfl rfl
  exact h

/-- A handler result whose `record.recordActions` field is present but
falsy — the shape that separates a presence check from the source's
truthiness check. -/
def falsyShapeResult : JSValue :=
  JSValue.vObj [("record", JSValue.vObj [("recordActions", JSValue.vBool false)])]

/-- An allowed record action returning `falsyShapeResult`. -/
def falsyShapeAction : AAction :=
  { name := "approve"
    isAccessible := fun _ _ => true
    handler := fun _ _ _ => Except.ok falsyShapeResult }

/-- A resource carrying the `falsyShapeAction` approve action. -/
def ordersFalsyShape : AResource :=
  { id := "orders", records := [annRecord], actions := [("approve", falsyShapeAction)]
    titleProperty := "name" }

/-- Admin instance holding only `ordersFalsyShape`. -/
def falsyShapeAdmin : AdminBro :=
  { resources := [ordersFalsyShape], options := noDashboard }

/-- C3 counterexample: a handler result that does have a `record` field
containing a `recordActions` field (its value is `false`) is still
rejected with the ConfigurationError, so the claim's "otherwise the
handler's result is returned unchanged" fails on the code. -/
theorem claim_C3_counterexample :
    JSValue.getField (JSValue.getField falsyShapeResult "record") "recordActions"
      = JSValue.vBool false
    ∧ (ApiController.recordAction falsyShapeAdmin none (fun r => r) approveReq
          JSValue.vNull).1
        = Except.error (DispatchError.configuration
            "handler of a recordAction should return a RecordJSON object"
            "Action.handler") :=
  ⟨rfl, rfl⟩

/-- C3 (amended): for every recordAction invocation whose handler
completes, the result is returned unchanged when the truthiness guard
on result, result.record and result.record.recordActions passes, and
otherwise the call fails with the ConfigurationError and the handler's
value is discarded. -/
theorem claim_C3_result_validation
    (admin : AdminBro) (currentAdmin : Option CurrentAdmin)
    (pop : Option ARecord → Option ARecord)
    (request : ActionRequest) (response : JSValue)
    (ctx : ActionContext) (action : AAction) (record : Option ARecord) (v : JSValue)
    (hctx : ApiController.getActionContext admin currentAdmin request = Except.ok ctx)
    (hact : ctx.action = some action)
    (hrec : record = pop (ctx.resource.findOne request.params.recordId))
    (hacc : action.isAccessible currentAdmin record = true)
    (hh : action.handler request response record = Except.ok v) :
    (hasRecordJSONShape v = true →
      (ApiController.recordAction admin currentAdmin pop request response).1
        = Except.ok v)
    ∧ (hasRecordJSONShape v = false →
      (ApiController.recordAction admin currentAdmin pop request response).1
        = Except.error (DispatchError.configuration
            "handler of a recordAction should return a RecordJSON object"
            "Action.handler")) := by
  subst hrec
  constructor
  · intro hs
    simp [ApiController.recordAction, hctx, hact, hacc, hh, hs]
  · intro hs
    simp [ApiController.recordAction, hctx, hact, hacc, hh, hs]

/-- Witness for C3 (amended) at a concrete well-shaped result: the
guard passes and the result is returned unchanged. -/
theorem claim_C3_witness :
    hasRecordJSONShape (JSValue.vObj [("record",
        JSValue.vObj [("recordActions", JSValue.vObj [])])]) = true
    ∧ (ApiController.recordAction allowedAdmin none (fun r => r) approveReq JSValue.vNull).1
        = Except.ok (JSValue.vObj [("record",
            JSValue.vObj [("recordActions", JSValue.vObj [])])]) := by
  have h := claim_C3_result_validation allowedAdmin none (fun r => r) approveReq JSValue.vNull
      { resource := ordersAllowed, action := some allowAction, currentAdmin := none
        _admin := allowedAdmin }
      allowAction none
      (JSValue.vObj [("record", JSValue.vObj [("recordActions", JSValue.vObj [])])])
      rfl rfl rfl rfl rfl
  exact ⟨rfl, h.1 rfl⟩

/-- C9: for every resourceAction invocation on an accessible action,
the handler's result is returned unchanged with no shape validation,
and a failure thrown by the handler propagates with its payload
untouched, unwrapped and unretried. -/
theorem claim_C9_resourceAction_opaque_passthrough
    (admin : AdminBro) (currentAdmin : Option CurrentAdmin)
    (request : ActionRequest) (response : JSValue)
    (ctx : ActionContext) (action : AAction)
    (hctx : ApiController.getActionContext admin currentAdmin request = Except.ok ctx)
    (hact : ctx.action = some action)
    (hacc : action.isAccessible currentAdmin none = true) :
    (∀ v, action.handler request response none = Except.ok v →
      ApiController.resourceAction admin currentAdmin request response
        = (Except.ok v, [Event.accessChecked none, Event.handlerCalled none]))
    ∧ (∀ e, action.handler request response none = Except.error e →
      ApiController.resourceAction admin currentAdmin request response
        = (Except.error (DispatchError.raised e),
           [Event.accessChecked none, Event.handlerCalled none])) := by
  constructor
  · intro v hv
    simp [ApiController.resourceAction, hctx, hact, hacc, hv]
  · intro e he
    simp [ApiController.resourceAction, hctx, hact, hacc, he]

/-- An allowed resource action whose handler returns plain null — a
value that recordAction's validation would reject. -/
def passAction : AAction :=
  { name := "export"
    isAccessible := fun _ _ => true
    handler := fun _ _ _ => Except.ok JSValue.vNull }

/-- A resource exposing only the `export` resource action. -/
def ordersExport : AResource :=
  { id := "orders", records := [], actions := [("export", passAction)]
    titleProperty := "name" }

/-- Admin instance holding only `ordersExport`. -/
def exportAdmin : AdminBro := { resources := [ordersExport], options := noDashboard }

/-- A request for the `export` resource action on `orders`. -/
def exportReq : ActionRequest :=
  { params := { resourceId := "orders", action := "export", recordId := "", query := "" } }

/-- Witness for C9 at a concrete accessible action whose handler
returns null: the null passes through unvalidated. -/
theorem claim_C9_witness :
    passAction.isAccessible none none = true
    ∧ ApiController.resourceAction exportAdmin none exportReq JSValue.vNull
        = (Except.ok JSValue.vNull,
           [Event.accessChecked none, Event.handlerCalled none]) := by
  have h := (claim_C9_resourceAction_opaque_passthrough exportAdmin none exportReq
      JSValue.vNull
      { resource := ordersExport, action := some passAction, currentAdmin := none
        _admin := exportAdmin }
      passAction rfl rfl rfl).1 JSValue.vNull rfl
  exact ⟨rfl, h⟩

/-- C10: the shape check of recordAction is a truthiness check on
result, result.record and result.record.recordActions — whenever any
of the three is falsy (including a present-but-falsy recordActions
field), the call fails with the ConfigurationError. -/
theorem claim_C10_truthiness_not_presence
    (admin : AdminBro) (currentAdmin : Option CurrentAdmin)
    (pop : Option ARecord → Option ARecord)
    (request : ActionRequest) (response : JSValue)
    (ctx : ActionContext) (action : AAction) (record : Option ARecord) (v : JSValue)
    (hctx : ApiController.getActionContext admin currentAdmin request = Except.ok ctx)
    (hact : ctx.action = some action)
    (hrec : record = pop (ctx.resource.findOne request.params.recordId))
    (hacc : action.isAccessible currentAdmin record = true)
    (hh : action.handler request response record = Except.ok v)
    (hfalsy : v.truthy = false ∨ (v.getField "record").truthy = false
        ∨ ((v.getField "record").getField "recordActions").truthy = false) :
    (ApiController.recordAction admin currentAdmin pop request response).1
      = Except.error (DispatchError.configuration
          "handler of a recordAction should return a RecordJSON object"
          "Action.handler") := by
  subst hrec
  have hs : hasRecordJSONShape v = false := by
    rcases hfalsy with h1 | h2 | h3
    · simp [hasRecordJSONShape, h1]
    · simp [hasRecordJSONShape, h2]
    · simp [hasRecordJSONShape, h3]
  simp [ApiController.recordAction, hctx, hact, hacc, hh, hs]

/-- Witness for C10 at a result whose recordActions field is present
but falsy: the call is still rejected. -/
theorem claim_C10_witness :
    ((falsyShapeResult.getField "record").getField "recordActions").truthy = false
    ∧ (ApiController.recordAction falsyShapeAdmin none (fun r => r) approveReq
          JSValue.vNull).1
        = Except.error (DispatchError.configuration
            "handler of a recordAction should return a RecordJSON object"
            "Action.handler") := by
  have h := claim_C10_truthiness_not_presence falsyShapeAdmin none (fun r => r)
      approveReq JSValue.vNull
      { resource := ordersFalsyShape, action := some falsyShapeAction, currentAdmin := none
        _admin := falsyShapeAdmin }
      falsyShapeAction none falsyShapeResult rfl rfl rfl rfl rfl
      (Or.inr (Or.inr rfl))
  exact ⟨rfl, h⟩

/-- A resource registering no actions at all. -/
def usersPlain : AResource :=
  { id := "users", records := [], actions := [], titleProperty := "name" }

/-- Admin instance holding only the action-less `usersPlain`. -/
def usersAdmin : AdminBro := { resources := [usersPlain], options := noDashboard }

/-- A request naming an action that is not registered on `users`. -/
def missingActionReq : ActionRequest :=
  { params := { resourceId := "users", action := "missing", recordId := "1", query := "" } }

/-- A request naming a resource id that is not registered. -/
def ghostReq : ActionRequest :=
  { params := { resourceId := "ghost", action := "missing", recordId := "1", query := "" } }

/-- C4 counterexample: with an unknown action name, context building
succeeds — it returns a context whose action is undefined instead of
failing — and resourceAction then fails with a TypeError from the
property access on undefined, not with NotFoundError. -/
theorem claim_C4_counterexample :
    ApiController.getActionContext usersAdmin none missingActionReq
      = Except.ok { resource := usersPlain, action := none, currentAdmin := none
                    _admin := usersAdmin }
    ∧ (ApiController.resourceAction usersAdmin none missingActionReq JSValue.vNull).1
        = Except.error (DispatchError.typeError accessUndefinedMsg) :=
  ⟨rfl, rfl⟩

/-- C4 (amended): context building fails with NotFoundError when the
resourceId does not resolve; when the actionName does not resolve it
does not fail — it returns a context with an undefined action, and
resourceAction and recordAction subsequently fail with a TypeError
raised by the property access on that undefined action, not with
NotFoundError. -/
theorem claim_C4_context_resolution
    (admin : AdminBro) (currentAdmin : Option CurrentAdmin)
    (pop : Option ARecord → Option ARecord)
    (request : ActionRequest) (response : JSValue) :
    (admin.resources.find? (fun res => res.id == request.params.resourceId) = none →
      ApiController.getActionContext admin currentAdmin request
        = Except.error (DispatchError.notFound
            ("There are no resources with given id: " ++ request.params.resourceId)))
    ∧ (∀ resource, admin.findResource request.params.resourceId = Except.ok resource →
        resource.actions.lookup request.params.action = none →
        ApiController.getActionContext admin currentAdmin request
          = Except.ok { resource := resource, action := none
                        currentAdmin := currentAdmin, _admin := admin }
        ∧ ApiController.resourceAction admin currentAdmin request response
            = (Except.error (DispatchError.typeError accessUndefinedMsg), [])
        ∧ (ApiController.recordAction admin currentAdmin pop request response).1
            = Except.error (DispatchError.typeError accessUndefinedMsg)) := by
  constructor
  · intro hmiss
    simp [ApiController.getActionContext, AdminBro.findResource, hmiss]
  · intro resource hres hmiss
    have hctx : ApiController.getActionContext admin currentAdmin request
        = Except.ok { resource := resource, action := none
                      currentAdmin := currentAdmin, _admin := admin } := by
      simp [ApiController.getActionContext, hres, hmiss]
    refine ⟨hctx, ?_, ?_⟩
    · simp [ApiController.resourceAction, hctx]
    · simp [ApiController.recordAction, hctx]

/-- Witness for C4 (amended): an unknown resource id yields
NotFoundError; an unknown action name yields the TypeError. -/
theorem claim_C4_witness :
    ApiController.getActionContext usersAdmin none ghostReq
      = Except.error (DispatchError.notFound "There are no resources with given id: ghost")
    ∧ (ApiController.recordAction usersAdmin none (fun r => r) missingActionReq
          JSValue.vNull).1
        = Except.error (DispatchError.typeError accessUndefinedMsg) := by
  have h1 := (claim_C4_context_resolution usersAdmin none (fun r => r) ghostReq
      JSValue.vNull).1 rfl
  have h2 := ((claim_C4_context_resolution usersAdmin none (fun r => r) missingActionReq
      JSValue.vNull).2 usersPlain rfl rfl).2.2
  exact ⟨by rw [h1]; rfl, h2⟩

/-- C5: if the actor fails the resource's built-in list action
accessibility check (with null target record), search fails with
ForbiddenError carrying action name "list" and the resource's id, and
find is never executed. -/
theorem claim_C5_search_forbidden_blocks_find
    (admin : AdminBro) (currentAdmin : Option CurrentAdmin) (request : ActionRequest)
    (resource : AResource) (listAction : AAction)
    (hres : admin.findResource request.params.resourceId = Except.ok resource)
    (hlist : resource.actions.lookup "list" = some listAction)
    (hacc : listAction.isAccessible currentAdmin none = false) :
    ApiController.search admin currentAdmin request
      = (Except.error (DispatchError.forbidden "list" resource.id), [])
    ∧ ∀ f l s d, Event.findCalled f l s d ∉
        (ApiController.search admin currentAdmin request).2 := by
  have hr : ApiController.search admin currentAdmin request
      = (Except.error (DispatchError.forbidden "list" resource.id), []) := by
    simp [ApiController.search, hres, hlist, hacc]
  exact ⟨hr, fun f l s d => by simp [hr]⟩

/-- A built-in list action denying everyone. -/
def denyListAction : AAction :=
  { name := "list"
    isAccessible := fun _ _ => false
    handler := fun _ _ _ => Except.ok JSValue.vNull }

/-- A users resource whose list action denies everyone. -/
def usersNoList : AResource :=
  { id := "users", records := [], actions := [("list", denyListAction)]
    titleProperty := "name" }

/-- Admin instance holding only `usersNoList`. -/
def usersNoListAdmin : AdminBro := { resources := [usersNoList], options := noDashboard }

/-- A search request on `users` with an empty query. -/
def searchUsersReq : ActionRequest :=
  { params := { resourceId := "users", action := "", recordId := "", query := "" } }

/-- Witness for C5: the empty-query search on the denied resource
fails with the forbidden error. -/
theorem claim_C5_witness :
    denyListAction.isAccessible none none = false
    ∧ ApiController.search usersNoListAdmin none searchUsersReq
        = (Except.error (DispatchError.forbidden "list" "users"), []) := by
  have h := (claim_C5_search_forbidden_blocks_find usersNoListAdmin none searchUsersReq
      usersNoList denyListAction rfl rfl rfl).1
  exact ⟨rfl, by rw [h]; rfl⟩

/-- The query result of `find` never exceeds the requested limit. -/
theorem AResource.find_length_le (res : AResource) (filter : List (String × String))
    (limit : Nat) (sortBy direction : String) :
    (res.find filter limit sortBy direction).length ≤ limit := by
  unfold AResource.find
  simp [List.length_take]

/-- The query result of an ascending `find` is sorted by the requested
property. -/
theorem AResource.find_sorted_asc (res : AResource) (filter : List (String × String))
    (limit : Nat) (sortBy : String) :
    List.Sorted (titleLE sortBy) (res.find filter limit sortBy "asc") := by
  have hdef : res.find filter limit sortBy "asc"
      = ((res.records.filter (matchesFilter filter)).insertionSort (titleLE sortBy)).take
          limit := rfl
  rw [hdef]
  exact (List.sorted_insertionSort (titleLE sortBy) _).sublist (List.take_sublist _ _)

/-- C6: search calls find with the filter built from the query term
(the title-property filter for a non-empty term, the empty filter
otherwise), always with limit 50 and ascending sort by the title
property; consequently it returns at most 50 records, listed in
ascending title-property order. -/
theorem claim_C6_search_query_contract
    (admin : AdminBro) (currentAdmin : Option CurrentAdmin) (request : ActionRequest)
    (resource : AResource) (listAction : AAction) (filters : List (String × String))
    (hres : admin.findResource request.params.resourceId = Except.ok resource)
    (hlist : resource.actions.lookup "list" = some listAction)
    (hacc : listAction.isAccessible currentAdmin none = true)
    (hfilters : filters = if request.params.query ≠ "" then
        [(resource.titleProperty, request.params.query)] else []) :
    ApiController.search admin currentAdmin request
      = (Except.ok ((resource.find filters 50 resource.titleProperty "asc").map
            (fun rec => rec.toJSON resource.titleProperty currentAdmin)),
         [Event.findCalled filters 50 resource.titleProperty "asc"])
    ∧ List.Sorted (titleLE resource.titleProperty)
        (resource.find filters 50 resource.titleProperty "asc")
    ∧ ((resource.find filters 50 resource.titleProperty "asc").map
          (fun rec => rec.toJSON resource.titleProperty currentAdmin)).length ≤ 50 := by
  subst hfilters
  refine ⟨?_, AResource.find_sorted_asc resource _ 50 resource.titleProperty, ?_⟩
  · simp [ApiController.search, hres, hlist, hacc]
  · simp [List.length_map]
    exact AResource.find_length_le resource _ 50 resource.titleProperty "asc"

/-- A built-in list action allowing everyone. -/
def allowListAction : AAction :=
  { name := "list"
    isAccessible := fun _ _ => true
    handler := fun _ _ _ => Except.ok JSValue.vNull }

/-- A record named Ann, serialized verbatim. -/
def annSearchRecord : ARecord :=
  { id := "1", params := [("name", "Ann")], serializeField := fun _ _ => "Ann" }

/-- A record named Anna, serialized verbatim. -/
def annaSearchRecord : ARecord :=
  { id := "2", params := [("name", "Anna")], serializeField := fun _ _ => "Anna" }

/-- A searchable users resource with two records and an allowed list
action. -/
def searchableUsers : AResource :=
  { id := "users", records := [annaSearchRecord, annSearchRecord]
    actions := [("list", allowListAction)], titleProperty := "name" }

/-- Admin instance holding only `searchableUsers`. -/
def searchAdmin : AdminBro := { resources := [searchableUsers], options := noDashboard }

/-- A search on `users` with the non-empty query `Ann`. -/
def searchQueryReq : ActionRequest :=
  { params := { resourceId := "users", action := "", recordId := "", query := "Ann" } }

/-- A search on `users` with an empty query. -/
def searchEmptyReq : ActionRequest :=
  { params := { resourceId := "users", action := "", recordId := "", query := "" } }

/-- Witness for C6 at a concrete non-empty query: find is called with
the title-property filter, limit 50, ascending sort, and the result
stays within the limit. -/
theorem claim_C6_witness :
    allowListAction.isAccessible none none = true
    ∧ (ApiController.search searchAdmin none searchQueryReq).2
        = [Event.findCalled [("name", "Ann")] 50 "name" "asc"]
    ∧ ((searchableUsers.find [("name", "Ann")] 50 "name" "asc").map
          (fun rec => rec.toJSON "name" none)).length ≤ 50 := by
  have h := claim_C6_search_query_contract searchAdmin none searchQueryReq
      searchableUsers allowListAction [("name", "Ann")] rfl rfl rfl rfl
  exact ⟨rfl, by rw [congrArg Prod.snd h.1]; rfl, h.2.2⟩

/-- C7: search maps each found record, in order, to exactly the shape
`{id, title}` with the title produced by the record's actor-aware
serialization of the title property, and performs no call beyond the
one read. -/
theorem claim_C7_search_serialization_shape
    (admin : AdminBro) (currentAdmin : Option CurrentAdmin) (request : ActionRequest)
    (resource : AResource) (listAction : AAction) (filters : List (String × String))
    (hres : admin.findResource request.params.resourceId = Except.ok resource)
    (hlist : resource.actions.lookup "list" = some listAction)
    (hacc : listAction.isAccessible currentAdmin none = true)
    (hfilters : filters = if request.params.query ≠ "" then
        [(resource.titleProperty, request.params.query)] else []) :
    ∃ found, found = resource.find filters 50 resource.titleProperty "asc"
      ∧ (ApiController.search admin currentAdmin request).1
          = Except.ok (found.map (fun rec =>
              { id := rec.id
                title := rec.serializeField currentAdmin resource.titleProperty }))
      ∧ (ApiController.search admin currentAdmin request).2
          = [Event.findCalled filters 50 resource.titleProperty "asc"] := by
  subst hfilters
  refine ⟨_, rfl, ?_, ?_⟩
  · simp [ApiController.search, hres, hlist, hacc, ARecord.toJSON]
  · simp [ApiController.search, hres, hlist, hacc]

/-- Witness for C7 at a concrete empty query: the response is the
mapped `{id, title}` list of the found records and the trace holds the
single find call. -/
theorem claim_C7_witness :
    (ApiController.search searchAdmin none searchEmptyReq).1
      = Except.ok ((searchableUsers.find [] 50 "name" "asc").map
          (fun rec => { id := rec.id, title := rec.serializeField none "name" }))
    ∧ (ApiController.search searchAdmin none searchEmptyReq).2
        = [Event.findCalled [] 50 "name" "asc"] := by
  obtain ⟨found, hfound, h1, h2⟩ := claim_C7_search_serialization_shape searchAdmin none
      searchEmptyReq searchableUsers allowListAction [] rfl rfl rfl rfl
  subst hfound
  exact ⟨h1, h2⟩

/-- C8 counterexample: with no configured handler, dashboard returns
the source's literal message — which reads "dashboard.handler fuction
in AdminBro options" — and that string differs from the claim's
"dashboard.handler function in options". -/
theorem claim_C8_counterexample :
    ApiController.dashboard deniedAdmin none approveReq JSValue.vNull
      = Except.ok (JSValue.vObj [("message", JSValue.vStr
          "You can override this method by setting up dashboard.handler fuction in AdminBro options")])
    ∧ ¬ (("You can override this method by setting up dashboard.handler fuction in AdminBro options" : String)
          = "You can override this method by setting up dashboard.handler function in options") :=
  ⟨rfl, by decide⟩

/-- C8 (amended): for every actor and request, dashboard with no
configured handler returns exactly the payload whose message is the
source's literal string (with its "fuction in AdminBro options"
wording), a value unchanged by actor or request content, and does not
fail. -/
theorem claim_C8_dashboard_default
    (admin : AdminBro) (currentAdmin : Option CurrentAdmin)
    (request : ActionRequest) (response : JSValue)
    (hnone : admin.options.dashboard.bind DashboardOptions.handler = none) :
    ApiController.dashboard admin currentAdmin request response
      = Except.ok (JSValue.vObj [("message", JSValue.vStr
          "You can override this method by setting up dashboard.handler fuction in AdminBro options")]) := by
  simp [ApiController.dashboard, hnone]

/-- Witness for C8 (amended) at a concrete admin with no dashboard
configuration. -/
theorem claim_C8_witness :
    noDashboard.dashboard.bind DashboardOptions.handler = none
    ∧ ApiController.dashboard deniedAdmin none exportReq JSValue.vNull
        = Except.ok (JSValue.vObj [("message", JSValue.vStr
            "You can override this method by setting up dashboard.handler fuction in AdminBro options")]) :=
  ⟨rfl, claim_C8_dashboard_default deniedAdmin none exportReq JSValue.vNull rfl⟩
